import Mathlib

/-!
Verification of the redkeep oplog tailer (`tail.go`) against its
natural-language specification.

The Go code is shallowly embedded: BSON-decoded `map[string]interface{}`
values become association lists over an inductive value type, Go type
assertions become `Option`-returning projections (an unchecked assertion
that would panic becomes `none` propagated through the caller), and the
`Tail` read loop becomes a function over an explicit trace of cursor
events.
-/

namespace Redkeep

/-- A Go `interface{}` value as produced by BSON decoding of an oplog
record: strings, `bson.ObjectId` (a string type), `bson.MongoTimestamp`
(a 64-bit value, modelled as the `Nat` bit pattern), integers, and nested
`map[string]interface{}` documents (modelled structurally). -/
inductive GoVal where
  | str (s : String)
  | oid (s : String)
  | mts (n : Nat)
  | int (n : Int)
  | doc (fields : List (String × GoVal))
deriving Repr

/-- A decoded top-level record: `map[string]interface{}`. -/
abbrev Doc := List (String × GoVal)

/-- Go map indexing `m[k]`: `none` plays the role of the `nil` interface
returned for an absent key. -/
def getField : Doc → String → Option GoVal
  | [], _ => none
  | (k, v) :: rest, key => if k = key then some v else getField rest key

/-- Go type assertion `x.(string)`: succeeds only on a string value. -/
def asString : Option GoVal → Option String
  | some (.str s) => some s
  | _ => none

/-- Go type assertion `x.(bson.ObjectId)`. -/
def asOid : Option GoVal → Option String
  | some (.oid s) => some s
  | _ => none

/-- Go type assertion `x.(bson.MongoTimestamp)`. -/
def asMts : Option GoVal → Option Nat
  | some (.mts n) => some n
  | _ => none

/-- Go type assertion `x.(map[string]interface{})`. -/
def asDoc : Option GoVal → Option Doc
  | some (.doc d) => some d
  | _ => none

/-- `strings.Index(ns, ".")`: index of the first `'.'`, `none` for Go's
`-1`.  (`'.'` is a single ASCII byte, so the byte index Go returns and
the character index agree on the position of the first dot, and slicing
at it splits at the first dot either way.) -/
def indexOfDot : List Char → Option Nat
  | [] => none
  | c :: rest =>
    if c = '.' then some 0
    else match indexOfDot rest with
         | some p => some (p + 1)
         | none => none

/-- The `oplogQuery` struct: the raw dataset plus the parsed database and
collection names. -/
structure OplogQuery where
  dataset : Doc
  db : String
  collection : String
deriving Repr

/-- `oplogQuery.OP`: reads `op` verbatim; absent or non-string yields `""`. -/
def OP (dataset : Doc) : String :=
  (asString (getField dataset "op")).getD ""

/-- `NewOplogQuery`: fails when `ns` is absent, not a string, empty, or
has no dot; otherwise splits `ns` at the first dot into database and
collection. -/
def NewOplogQuery (dataset : Doc) : Except String OplogQuery :=
  match asString (getField dataset "ns") with
  | none => .error "namespace not given"
  | some ns =>
    if ns = "" then .error "namespace not given"
    else
      match indexOfDot ns.data with
      | none => .error "Invalid namespace given, must contain dot"
      | some p =>
        .ok { dataset := dataset
              db := ⟨ns.data.take p⟩
              collection := ⟨ns.data.drop (p + 1)⟩ }

/-- A watch rule pairing a target collection with a track collection. -/
structure Watch where
  TargetCollection : String
  TrackCollection : String
deriving Repr, DecidableEq

/-- `mgo.DBRef` as used here: `Id` always holds a `bson.ObjectId` (a
string type whose zero value is `""`). -/
structure DBRef where
  Collection : String
  Id : String
  Database : String
deriving Repr, DecidableEq

/-- The zero value `mgo.DBRef{}`. -/
def zeroDBRef : DBRef := ⟨"", "", ""⟩

/-- One tracker invocation made by the dispatcher. -/
inductive TrackerCall where
  | handleInsert (w : Watch) (document : Doc) (ref : DBRef)
  | handleUpdate (w : Watch) (document : Doc) (selector : Doc)
  | handleRemove (w : Watch) (document : Doc) (selector : Doc)
deriving Repr

/-- Outcome of the `switch` body for a single watch: continue to the next
watch, return from `analyzeResult` (the `default` arm), or panic on a
failed unchecked type assertion. -/
inductive WatchStep where
  | went (calls : List TrackerCall) (logs : List String)
  | halt (logs : List String)
  | panic
deriving Repr

/-- The `switch operationType` body of `analyzeResult` for one watch `w`.
In the `"u"` arm the target-collection branch evaluates
`dataset["o2"].(map[string]interface{})["_id"].(bson.ObjectId)` with
unchecked assertions (panic when `o2` is absent / not a document or
`_id` is absent / not an ObjectId), while the track-collection branch
re-reads `o2` with a checked assertion and silently skips on failure. -/
def dispatchWatch (op ns : String) (dataset command : Doc)
    (triggerDB triggerCollection : String) (triggerRef : DBRef)
    (w : Watch) : WatchStep :=
  match op with
  | "i" =>
    .went (if w.TargetCollection = ns then [.handleInsert w command triggerRef] else []) []
  | "u" =>
    let insPart : Option (List TrackerCall) :=
      if w.TargetCollection = ns then
        match asDoc (getField dataset "o2") with
        | none => none
        | some o2 =>
          match asOid (getField o2 "_id") with
          | none => none
          | some i => some [.handleInsert w command ⟨triggerCollection, i, triggerDB⟩]
      else some []
    match insPart with
    | none => .panic
    | some ins =>
      let upd :=
        if w.TrackCollection = ns then
          match asDoc (getField dataset "o2") with
          | some selector => [.handleUpdate w command selector]
          | none => []
        else []
      .went (ins ++ upd) []
  | "d" =>
    .went
      (if w.TrackCollection = ns then
        match asDoc (getField dataset "o2") with
        | some selector => [.handleRemove w command selector]
        | none => []
      else []) []
  | "c" => .went [] []
  | _ => .halt ["unsupported operation " ++ op ++ "."]

/-- `for _, w := range watches { switch ... }` with the `default` arm's
early `return` and panic propagation. -/
def dispatchLoop (op ns : String) (dataset command : Doc)
    (triggerDB triggerCollection : String) (triggerRef : DBRef) :
    List Watch → Option (List TrackerCall × List String)
  | [] => some ([], [])
  | w :: rest =>
    match dispatchWatch op ns dataset command triggerDB triggerCollection triggerRef w with
    | .panic => none
    | .halt ls => some ([], ls)
    | .went cs ls =>
      match dispatchLoop op ns dataset command triggerDB triggerCollection triggerRef rest with
      | none => none
      | some (cs2, ls2) => some (cs ++ cs2, ls ++ ls2)

/-- `analyzeResult`: parse the record (a failed parse is logged and the
event dropped), skip everything unless `o` is a document, then dispatch
each watch against the namespace.  Result: `none` for a Go panic,
otherwise the tracker calls made and the log lines written, in order. -/
def analyzeResult (dataset : Doc) (w : List Watch) :
    Option (List TrackerCall × List String) :=
  match NewOplogQuery dataset with
  | .error e => some ([], [e])
  | .ok query =>
    let triggerDB := query.db
    let triggerCollection := query.collection
    let operationType := OP dataset
    let ns := triggerDB ++ "." ++ triggerCollection
    match asDoc (getField dataset "o") with
    | none => some ([], [])
    | some command =>
      let triggerID := (asOid (getField command "_id")).getD ""
      let triggerRef : DBRef := ⟨triggerCollection, triggerID, triggerDB⟩
      dispatchLoop operationType ns dataset command triggerDB triggerCollection triggerRef w

/-- Modelled from the spec: the repository's `GetValue` helper is not
under `src/` (only its caller `getReference` is).  §4.3: "Looks up `$id`
and `$ref` keys in the given value (which may be arbitrarily
nested/typed)" with absent/mistyped lookups non-fatal — modelled as a
key lookup on a document value, `none` (Go `nil`) on a non-document
value or an absent key. -/
def GetValue (key : String) (target : GoVal) : Option GoVal :=
  match target with
  | .doc fields => getField fields key
  | _ => none

/-- `getReference`: `$id` must be an ObjectId and `$ref` a string for
`ok = true`; `$db`, when a string, overrides the default database.  A
failed assertion leaves the corresponding Go variable at its zero value,
which still lands in the returned `DBRef`. -/
def getReference (target : GoVal) (originalDatabase : String) : DBRef × Bool :=
  let idRes := asOid (GetValue "$id" target)
  let refRes := asString (GetValue "$ref" target)
  let dbRes := asString (GetValue "$db" target)
  let db := dbRes.getD originalDatabase
  (⟨refRes.getD "", idRes.getD "", db⟩, idRes.isSome && refRes.isSome)

/-- Go's `uint32(v)` conversion from a signed integer: the low 32 bits of
the two's-complement representation, i.e. `v mod 2^32`. -/
def uint32cast (v : Int) : Nat := (v % (2 ^ 32)).toNat

/-- `mongoTimestamp.MongoTimestamp`: writes `uint32(m.Unix())` big-endian
into the first 4 bytes of a zeroed 12-byte buffer and reads a big-endian
`uint64` from the front, so the result's bit pattern is the seconds value
shifted into the high 32 bits with a zero low half. -/
def MongoTimestamp (unixSec : Int) : Nat :=
  uint32cast unixSec * 2 ^ 32

/-! ## The `Tail` read loop

The loop's record `result` is a `map[string]interface{}` whose nested
documents are separate heap objects; to reason about sharing, values here
carry the heap address of a nested document instead of its contents. -/

/-- An `interface{}` value inside the read loop's record; `docRef a` is a
pointer to the nested `map[string]interface{}` at heap address `a`. -/
inductive PVal where
  | str (s : String)
  | oid (s : String)
  | mts (n : Nat)
  | int (n : Int)
  | docRef (addr : Nat)
deriving Repr, DecidableEq

/-- A top-level record with nested documents by address. -/
abbrev PDoc := List (String × PVal)

/-- Map indexing on a `PDoc`. -/
def getPField : PDoc → String → Option PVal
  | [], _ => none
  | (k, v) :: rest, key => if k = key then some v else getPField rest key

/-- `result["ts"].(bson.MongoTimestamp)` (unchecked in the source). -/
def asPMts : Option PVal → Option Nat
  | some (.mts n) => some n
  | _ => none

/-- The copy taken before dispatch (tail.go lines 200–203):
`copyResult := make(map[string]interface{}); for k, v := range result
{ copyResult[k] = v }` — a fresh top-level map holding the same entry
values, nested-document pointers included. -/
def copyResult (result : PDoc) : PDoc :=
  result.map (fun kv => (kv.1, kv.2))

/-- Heap addresses of the nested documents a record points to. -/
def addrsOf (d : PDoc) : List Nat :=
  d.filterMap (fun kv =>
    match kv.2 with
    | .docRef a => some a
    | _ => none)

/-- Two records share a mutable substructure when some nested document
(heap address) is reachable from both. -/
def sharesNestedDoc (a b : PDoc) : Bool :=
  (addrsOf a).any (fun x => (addrsOf b).contains x)

/-- How one tailable cursor ends: idle timeout, clean exhaustion, or an
error from the cursor. -/
inductive CursorEnd where
  | timeout
  | clean
  | errored (e : String)
deriving Repr, DecidableEq

/-- One outer iteration of the `Tail` loop, as seen from outside: either
a value is pending on `quit` at the poll, or nothing is pending and the
cursor yields a batch of entries and then ends. -/
inductive TailEvent where
  | quit (v : Bool)
  | batch (entries : List PDoc) (fin : CursorEnd)
deriving Repr, DecidableEq

/-- The loop-local state: `lastTimestamp`, the records handed to
`go analyzeResult` so far, and the `$gt` timestamp filter of every cursor
opened so far (in order). -/
structure TailState where
  lastTimestamp : Nat
  spawned : List PDoc
  filters : List Nat
deriving Repr, DecidableEq

/-- How a run of `Tail` ends. `traceEnd` means the supplied trace ran out
while the loop would have kept going. -/
inductive TailOutcome where
  | cleanStop
  | cursorError (e : String)
  | tsPanic
  | traceEnd
deriving Repr, DecidableEq

/-- The inner `for iter.Next(&result)` loop: record the entry's `ts`
(panic when absent or mistyped), shallow-copy the record, and submit the
copy for concurrent dispatch. -/
def processEntries : TailState → List PDoc → Option TailState
  | st, [] => some st
  | st, d :: rest =>
    match asPMts (getPField d "ts") with
    | none => none
    | some ts =>
      processEntries
        { st with
          lastTimestamp := ts
          spawned := st.spawned ++ [copyResult d] } rest

/-- The outer `for` loop of `Tail`: poll `quit` (any value stops the loop
with a `nil` return), drain the cursor, then: error ⇒ return it, timeout
⇒ re-poll the same cursor, clean end ⇒ reopen a cursor filtered at
`lastTimestamp`. -/
def tailLoop : TailState → List TailEvent → TailOutcome × TailState
  | st, [] => (.traceEnd, st)
  | st, .quit _ :: _ => (.cleanStop, st)
  | st, .batch es fin :: rest =>
    match processEntries st es with
    | none => (.tsPanic, st)
    | some st' =>
      match fin with
      | .errored e => (.cursorError e, st')
      | .timeout => tailLoop st' rest
      | .clean => tailLoop { st' with filters := st'.filters ++ [st'.lastTimestamp] } rest

/-- `Tail(quit, forceRescan)`: the first cursor is filtered at the start
time's logical timestamp (the Unix epoch when `forceRescan`), and
`lastTimestamp` starts at its zero value. -/
def tailRun (startSec : Int) (forceRescan : Bool) (trace : List TailEvent) :
    TailOutcome × TailState :=
  let startTs := if forceRescan then MongoTimestamp 0 else MongoTimestamp startSec
  tailLoop { lastTimestamp := 0, spawned := [], filters := [startTs] } trace

/-- A list of cursor filters never regresses. -/
def nonDecreasing : List Nat → Bool
  | [] => true
  | [_] => true
  | a :: b :: rest => Nat.ble a b && nonDecreasing (b :: rest)

/-! ## Supporting lemmas -/

theorem indexOfDot_append (a b : List Char) (ha : '.' ∉ a) :
    indexOfDot (a ++ '.' :: b) = some a.length := by
  induction a with
  | nil => simp [indexOfDot]
  | cons c rest ih =>
    have hc : ¬ c = '.' := fun h => ha (h ▸ List.mem_cons_self c rest)
    have hr : '.' ∉ rest := fun h => ha (List.mem_cons_of_mem c h)
    simp [indexOfDot, hc, ih hr]

theorem indexOfDot_eq_none (l : List Char) (h : '.' ∉ l) : indexOfDot l = none := by
  induction l with
  | nil => rfl
  | cons c rest ih =>
    have hc : ¬ c = '.' := fun hx => h (hx ▸ List.mem_cons_self c rest)
    have hr : '.' ∉ rest := fun hx => h (List.mem_cons_of_mem c hx)
    simp [indexOfDot, hc, ih hr]

theorem take_length_append (a b : List Char) : (a ++ b).take a.length = a := by
  induction a with
  | nil => simp
  | cons c rest ih => simp [ih]

theorem drop_length_succ_append (a : List Char) (c : Char) (b : List Char) :
    (a ++ c :: b).drop (a.length + 1) = b := by
  induction a with
  | nil => simp
  | cons d rest ih => simp [ih]

/-- The tracker calls the `"u"` switch arm makes for one watch, given
that `o2` is a document whose `_id` is an ObjectId `i`. -/
def uCalls (ns : String) (command o2 : Doc) (tdb tcol : String) (i : String)
    (w : Watch) : List TrackerCall :=
  (if w.TargetCollection = ns then [.handleInsert w command ⟨tcol, i, tdb⟩] else []) ++
  (if w.TrackCollection = ns then [.handleUpdate w command o2] else [])

theorem dispatchWatch_u_went (ns : String) (dataset command : Doc)
    (tdb tcol : String) (tref : DBRef) (o2 : Doc) (i : String) (w : Watch)
    (ho2 : asDoc (getField dataset "o2") = some o2)
    (hid : asOid (getField o2 "_id") = some i) :
    dispatchWatch "u" ns dataset command tdb tcol tref w =
      .went (uCalls ns command o2 tdb tcol i w) [] := by
  by_cases ht : w.TargetCollection = ns <;>
    simp [dispatchWatch, uCalls, ho2, hid, ht]

theorem dispatchLoop_u_eq (ns : String) (dataset command : Doc)
    (tdb tcol : String) (tref : DBRef) (o2 : Doc) (i : String)
    (ho2 : asDoc (getField dataset "o2") = some o2)
    (hid : asOid (getField o2 "_id") = some i) (ws : List Watch) :
    dispatchLoop "u" ns dataset command tdb tcol tref ws =
      some (ws.flatMap (uCalls ns command o2 tdb tcol i), []) := by
  induction ws with
  | nil => rfl
  | cons w rest ih =>
    rw [dispatchLoop, dispatchWatch_u_went ns dataset command tdb tcol tref o2 i w ho2 hid,
      ih]
    simp

theorem dispatchLoop_c_eq (ns : String) (dataset command : Doc)
    (tdb tcol : String) (tref : DBRef) (ws : List Watch) :
    dispatchLoop "c" ns dataset command tdb tcol tref ws = some ([], []) := by
  induction ws with
  | nil => rfl
  | cons w rest ih => simp [dispatchLoop, dispatchWatch, ih]

/-! ## Claims -/

/-- C7: for every wall-clock instant (whose Unix-seconds value is
representable in the 32-bit seconds field), the produced 64-bit logical
timestamp has the Unix-seconds value as its high 32 bits and zero as its
low 32 bits; the conversion is a total function. -/
theorem c7_timestamp_layout (sec : Int) (h0 : 0 ≤ sec) (h1 : sec < 2 ^ 32) :
    MongoTimestamp sec / 2 ^ 32 = sec.toNat ∧
      MongoTimestamp sec % 2 ^ 32 = 0 ∧
      MongoTimestamp sec < 2 ^ 64 := by
  have hmod : sec % 2 ^ 32 = sec := Int.emod_eq_of_lt h0 h1
  have h2 : uint32cast sec = sec.toNat := by unfold uint32cast; rw [hmod]
  have h3 : sec.toNat < 2 ^ 32 := by omega
  refine ⟨?_, ?_, ?_⟩
  · rw [MongoTimestamp, h2, Nat.mul_div_cancel _ (by norm_num)]
  · rw [MongoTimestamp, Nat.mul_mod_left]
  · rw [MongoTimestamp, h2]
    omega

/-- Witness for C7 at the instant 2023-11-14 22:13:20 UTC. -/
theorem c7_timestamp_layout_witness :
    MongoTimestamp 1700000000 / 2 ^ 32 = (1700000000 : Int).toNat ∧
      MongoTimestamp 1700000000 % 2 ^ 32 = 0 ∧
      MongoTimestamp 1700000000 < 2 ^ 64 :=
  c7_timestamp_layout 1700000000 (by norm_num) (by norm_num)

/-- C4: a record whose `ns` is a string with a dot parses into the text
before the first dot (database) and everything after it (collection,
which may contain further dots); a record whose `ns` is absent, not a
string, empty, or dot-free is rejected with an error. -/
theorem c4_parse_ns (dataset : Doc) :
    (∀ a b : List Char, getField dataset "ns" = some (.str ⟨a ++ '.' :: b⟩) →
        '.' ∉ a →
        NewOplogQuery dataset = .ok ⟨dataset, ⟨a⟩, ⟨b⟩⟩) ∧
    (asString (getField dataset "ns") = none →
        ∃ e, NewOplogQuery dataset = .error e) ∧
    (∀ s : String, getField dataset "ns" = some (.str s) → s = "" ∨ '.' ∉ s.data →
        ∃ e, NewOplogQuery dataset = .error e) := by
  refine ⟨?_, ?_, ?_⟩
  · intro a b hns ha
    have hne : (⟨a ++ '.' :: b⟩ : String) ≠ "" := by
      intro h
      have := congrArg String.data h
      simp at this
    rw [NewOplogQuery, hns]
    simp only [asString, hne, if_false]
    rw [indexOfDot_append a b ha]
    simp [take_length_append, drop_length_succ_append]
  · intro hns
    rw [NewOplogQuery, hns]
    exact ⟨_, rfl⟩
  · intro s hns hbad
    rw [NewOplogQuery, hns]
    simp only [asString]
    rcases hbad with h | h
    · subst h; simp
    · rw [indexOfDot_eq_none s.data h]
      by_cases hs : s = "" <;> simp [hs]

/-- Witness for C4: `ns = "db.a.b"` parses to database `"db"` and
collection `"a.b"`, and a dot-free `ns` is rejected. -/
theorem c4_parse_ns_witness :
    NewOplogQuery [("ns", GoVal.str "db.a.b")] =
        .ok ⟨[("ns", GoVal.str "db.a.b")], "db", "a.b"⟩ ∧
      ∃ e, NewOplogQuery [("ns", GoVal.str "nodot")] = .error e :=
  ⟨(c4_parse_ns [("ns", GoVal.str "db.a.b")]).1 ['d', 'b'] ['a', '.', 'b'] rfl
      (by decide),
   (c4_parse_ns [("ns", GoVal.str "nodot")]).2.2 "nodot" rfl (Or.inr (by decide))⟩

/-- C8: an event whose operation kind is `"c"` (command) invokes no
tracker method for any configured list of watches — `analyzeResult`
completes without a panic and with an empty call list. -/
theorem c8_command_ignored (dataset : Doc) (ws : List Watch)
    (hop : OP dataset = "c") :
    ∃ logs, analyzeResult dataset ws = some ([], logs) := by
  cases hq : NewOplogQuery dataset with
  | error e => exact ⟨[e], by simp [analyzeResult, hq]⟩
  | ok q =>
    cases ho : asDoc (getField dataset "o") with
    | none => exact ⟨[], by simp [analyzeResult, hq, ho]⟩
    | some command =>
      exact ⟨[], by simp [analyzeResult, hq, ho, hop, dispatchLoop_c_eq]⟩

/-- Witness for C8: a command event on a namespace matching a watch's
target and track collections still makes no tracker call. -/
theorem c8_command_ignored_witness :
    ∃ logs,
      analyzeResult
        [("ns", .str "a.b"), ("op", .str "c"), ("o", .doc [("f", .int 2)])]
        [⟨"a.b", "a.b"⟩] = some ([], logs) :=
  c8_command_ignored _ _ rfl

/-- C5: for an update event (`op = "u"`, well-formed `o` document and
`o2` selector carrying an ObjectId `_id`) and any watch in the list whose
`TargetCollection` and `TrackCollection` both equal the event's
namespace, dispatch makes both a `HandleInsert` call — whose reference id
is taken from the selector `o2._id`, with the update document `o` — and a
`HandleUpdate` call with document `o` and selector `o2`. -/
theorem c5_update_dual_fire (dataset : Doc) (ws : List Watch) (w : Watch)
    (q : OplogQuery) (o o2 : Doc) (i : String)
    (hq : NewOplogQuery dataset = .ok q)
    (hop : OP dataset = "u")
    (ho : asDoc (getField dataset "o") = some o)
    (ho2 : asDoc (getField dataset "o2") = some o2)
    (hid : asOid (getField o2 "_id") = some i)
    (hw : w ∈ ws)
    (htarget : w.TargetCollection = q.db ++ "." ++ q.collection)
    (htrack : w.TrackCollection = q.db ++ "." ++ q.collection) :
    ∃ calls logs, analyzeResult dataset ws = some (calls, logs) ∧
      TrackerCall.handleInsert w o ⟨q.collection, i, q.db⟩ ∈ calls ∧
      TrackerCall.handleUpdate w o o2 ∈ calls := by
  refine ⟨ws.flatMap (uCalls (q.db ++ "." ++ q.collection) o o2 q.db q.collection i),
    [], ?_, ?_, ?_⟩
  · simp [analyzeResult, hq, ho, hop, dispatchLoop_u_eq _ _ _ _ _ _ _ _ ho2 hid]
  · exact List.mem_flatMap.mpr ⟨w, hw, by simp [uCalls, htarget, htrack]⟩
  · exact List.mem_flatMap.mpr ⟨w, hw, by simp [uCalls, htarget, htrack]⟩

/-- A concrete update record: note the inserted reference id must come
from `o2._id` (`"ID"`), not from `o._id` (`"OTHER"`). -/
def c5dataset : Doc :=
  [("ns", .str "a.b"), ("op", .str "u"),
   ("o", .doc [("_id", .oid "OTHER"), ("f", .int 2)]),
   ("o2", .doc [("_id", .oid "ID")])]

/-- Witness for C5 on `c5dataset` with a watch targeting and tracking
`"a.b"`. -/
theorem c5_update_dual_fire_witness :
    ∃ calls logs, analyzeResult c5dataset [⟨"a.b", "a.b"⟩] = some (calls, logs) ∧
      TrackerCall.handleInsert ⟨"a.b", "a.b"⟩
        [("_id", .oid "OTHER"), ("f", .int 2)] ⟨"b", "ID", "a"⟩ ∈ calls ∧
      TrackerCall.handleUpdate ⟨"a.b", "a.b"⟩
        [("_id", .oid "OTHER"), ("f", .int 2)] [("_id", .oid "ID")] ∈ calls :=
  c5_update_dual_fire c5dataset [⟨"a.b", "a.b"⟩] ⟨"a.b", "a.b"⟩
    ⟨c5dataset, "a", "b"⟩ [("_id", .oid "OTHER"), ("f", .int 2)]
    [("_id", .oid "ID")] "ID" rfl rfl rfl rfl rfl (by simp) rfl rfl

/-- C1 (refuted on the code): `Tail` started at Unix second 1 without
rescan opens its first cursor filtered at `1 <<< 32`, but when that
cursor is exhausted cleanly before any entry has been observed, the
requery filter is the zero value of `lastTimestamp`: the opened-cursor
filters go `[2 ^ 32, 0]`, a regression below the previous filter. -/
theorem c1_resume_filter_regresses :
    (tailRun 1 false [.batch [] .clean]).2.filters = [2 ^ 32, 0] ∧
      nonDecreasing (tailRun 1 false [.batch [] .clean]).2.filters = false :=
  ⟨rfl, rfl⟩

/-- A read-loop record pointing at nested documents `o` (heap address 7)
and `o2` (heap address 8). -/
def c2record : PDoc := [("o", .docRef 7), ("o2", .docRef 8), ("ts", .mts 5)]

/-- C2 (refuted on the code): the copy handed to the dispatch goroutine
still points at the very nested documents of the loop's record — a deep
copy would share none of them. -/
theorem c2_copy_shares_nested :
    sharesNestedDoc c2record (copyResult c2record) = true := rfl

/-- C2 amended: the pre-dispatch copy is a fresh top-level map whose
entries are identical to the original's, so every nested document (such
as the values of `o` and `o2`) is shared by reference with the record the
read loop reuses, not re-allocated. -/
theorem c2_copy_is_shallow (result : PDoc) :
    copyResult result = result ∧
      ∀ k a, getPField result k = some (.docRef a) →
        getPField (copyResult result) k = some (.docRef a) := by
  have h : copyResult result = result := by simp [copyResult]
  exact ⟨h, fun k a hk => by rw [h]; exact hk⟩

/-- Witness for the amended C2: the copy of `c2record` still resolves
`"o"` to the nested document at heap address 7. -/
theorem c2_copy_is_shallow_witness :
    getPField (copyResult c2record) "o" = some (.docRef 7) :=
  (c2_copy_is_shallow c2record).2 "o" 7 rfl

/-- C3 (refuted on the code): an update record with no `o2` selector, on
a namespace matching a watch's target collection, fails the unchecked
type assertion `dataset["o2"].(map[string]interface{})` — a Go panic
(modelled as `none`) instead of the claimed log-and-skip. -/
theorem c3_malformed_update_panics :
    analyzeResult
      [("ns", .str "a.b"), ("op", .str "u"), ("o", .doc [("x", .int 1)])]
      [⟨"a.b", "c.d"⟩] = none := rfl

/-- C6 (refuted on the code): with `$id` missing, resolution returns
`ok = false`, but the accompanying reference is not the zero value — the
default database has already been filled into it. -/
theorem c6_failed_resolve_not_zero :
    getReference (.doc []) "mydb" = (⟨"", "", "mydb"⟩, false) ∧
      (⟨"", "", "mydb"⟩ : DBRef) ≠ zeroDBRef :=
  ⟨rfl, by decide⟩

/-- C6 amended: `ok = true` exactly when `$id` resolves to an ObjectId
and `$ref` to a string; `$db`, when a string, overrides the default
database, which is used otherwise — but on failure the returned
reference keeps whatever fields did resolve (including the database), it
is not zeroed. -/
theorem c6_reference_resolution (target : GoVal) (originalDatabase : String) :
    ((getReference target originalDatabase).2 = true ↔
      (∃ i, asOid (GetValue "$id" target) = some i) ∧
      (∃ s, asString (GetValue "$ref" target) = some s)) ∧
    (∀ s, asString (GetValue "$db" target) = some s →
      (getReference target originalDatabase).1.Database = s) ∧
    (asString (GetValue "$db" target) = none →
      (getReference target originalDatabase).1.Database = originalDatabase) := by
  refine ⟨?_, ?_, ?_⟩
  · simp [getReference, Option.isSome_iff_exists]
  · intro s hs; simp [getReference, hs]
  · intro hdb; simp [getReference, hdb]

/-- A reference value carrying all three `$`-keys. -/
def c6target : GoVal :=
  .doc [("$id", .oid "I"), ("$ref", .str "c"), ("$db", .str "d2")]

/-- Witness for the amended C6: an explicit `$db` overrides the default
database. -/
theorem c6_reference_resolution_witness :
    (getReference c6target "orig").1.Database = "d2" :=
  (c6_reference_resolution c6target "orig").2.1 "d2" rfl

/-- C9: when a value — of either boolean — is pending on the quit
channel, the next poll stops the loop with a clean (nil-error) return;
the loop state (records already submitted for dispatch, opened cursor
filters, resume position) is left untouched and the remaining trace is
never consumed: submitted dispatch tasks are neither waited on nor
canceled. -/
theorem c9_quit_stops_cleanly (v : Bool) (rest : List TailEvent) (st : TailState) :
    tailLoop st (.quit v :: rest) = (.cleanStop, st) := rfl

/-- C10 (refuted on the code): a record with `o` absent can still emit a
log line — when its `ns` fails to parse, the parse error is logged before
the `o` guard is ever reached. -/
theorem c10_missing_o_still_logs :
    analyzeResult [("op", .str "x")] [] = some ([], ["namespace not given"]) := rfl

/-- C10 amended: when the record's `ns` parses successfully and `o` is
absent or not a document, dispatch performs no action at all — no tracker
call and no log line, even for an unknown operation kind or a matching
watch; only a record whose `ns` fails to parse still produces a log
line. -/
theorem c10_missing_o_no_action (dataset : Doc) (ws : List Watch) (q : OplogQuery)
    (hq : NewOplogQuery dataset = .ok q)
    (ho : asDoc (getField dataset "o") = none) :
    analyzeResult dataset ws = some ([], []) := by
  simp [analyzeResult, hq, ho]

/-- Witness for the amended C10: an unknown op (`"x"`) with `o` absent,
on a namespace matching the watch, produces neither calls nor logs. -/
theorem c10_missing_o_no_action_witness :
    analyzeResult [("ns", .str "a.b"), ("op", .str "x")] [⟨"a.b", "a.b"⟩] =
      some ([], []) :=
  c10_missing_o_no_action _ _ ⟨[("ns", .str "a.b"), ("op", .str "x")], "a", "b"⟩ rfl rfl

end Redkeep
